import Mathlib

/-!
Verification of `redherring/distractor_env.py` (the `DMCWrapper` class).

The wrapper adapts a dm_control environment to a gym-style interface,
optionally overlaying a distractor background on pixel observations.
Floating-point values of the Python code are modelled as exact rationals
(`ℚ`); numpy arrays of pixels are modelled as a structure carrying explicit
dimensions and a pixel function; the action vectors are functions
`Fin n → ℚ`.
-/

/-- A numpy array of rank 3 as produced by `physics.render` (shape
`(h, w, c)`): explicit dimensions plus a pixel-value function indexed
`[dim0][dim1][dim2]`.  Values are natural numbers (uint8 pixels). -/
structure NpImg where
  h : ℕ
  w : ℕ
  c : ℕ
  px : ℕ → ℕ → ℕ → ℕ

/-- Shape `arr.shape` of the modelled rank-3 array. -/
def NpImg.shape (a : NpImg) : List ℕ := [a.h, a.w, a.c]

/-- The mask of `_get_obs`, line 139:
`np.logical_and(obs[:, :, 2] > obs[:, :, 1], obs[:, :, 2] > obs[:, :, 0])`. -/
def dmcMask (o : NpImg) (y x : ℕ) : Bool :=
  decide (o.px y x 1 < o.px y x 2) && decide (o.px y x 0 < o.px y x 2)

/-- The masked assignment `obs[mask] = bg[mask]` of `_get_obs`, line 141:
every channel of a pixel selected by the 2-D mask is taken from `bg`,
every other pixel is left unchanged. -/
def maskedAssign (o : NpImg) (m : ℕ → ℕ → Bool) (bg : NpImg) : NpImg :=
  { o with px := fun y x ch => if m y x then bg.px y x ch else o.px y x ch }

/-- Transpose `obs.transpose(2, 0, 1)` of `_get_obs`, line 142: the `(h, w, c)` array
becomes a `(c, h, w)` array with `out[k][y][x] = in[y][x][k]`. -/
def transpose201 (a : NpImg) : NpImg :=
  ⟨a.c, a.h, a.w, fun k y x => a.px y x k⟩

/-- A value of the dm_env observation dict: either a numpy scalar or a
numpy array with a shape and its raveled (row-major flattened) data. -/
inductive ObsVal where
  | scalar (q : ℚ)
  | arr (shape : List ℕ) (data : List ℚ)

/-- Flattening of one dict value, `np.array([v]) if np.isscalar(v) else v.ravel()`, in `_flatten_obs`. -/
def ObsVal.ravel : ObsVal → List ℚ
  | .scalar q => [q]
  | .arr _ d => d

/-- The number of elements (`v.size`) of an observation value. -/
def ObsVal.size : ObsVal → ℕ
  | .scalar _ => 1
  | .arr s _ => s.prod

/-- An observation value is well formed when its data length is the
product of its shape (always true of a numpy array). -/
def ObsVal.wf : ObsVal → Prop
  | .scalar _ => True
  | .arr s d => d.length = s.prod

/-- Function `_flatten_obs` (lines 36-41): concatenate, in dict iteration order,
each value flattened (a scalar becomes a length-1 array, an array is
raveled).  The dict is modelled as an association list in iteration
order. -/
def flatten_obs (obs : List (String × ObsVal)) : List ℚ :=
  (obs.map (fun p => p.2.ravel)).flatten

/-- Python truthiness choice `passed or stored` for the optional numeric
arguments of `_render` (lines 198-200): `None` and `0` are falsy. -/
def pyOr (passed : Option ℕ) (stored : ℕ) : ℕ :=
  match passed with
  | none => stored
  | some v => if v = 0 then stored else v

/-- Method `_render` (lines 195-203) with `mode = 'rgb_array'`: resolve each
argument through Python `or` against the stored value and call the
external renderer `physics.render`. -/
def render_resolved (renderFn : ℕ → ℕ → ℕ → NpImg)
    (storedH storedW storedC : ℕ)
    (height width cameraId : Option ℕ) : NpImg :=
  renderFn (pyOr height storedH) (pyOr width storedW) (pyOr cameraId storedC)

/-- An observation returned by `_get_obs`: a pixel array or a flat
vector. -/
inductive Obs where
  | pixels (img : NpImg)
  | vec (v : List ℚ)

/-- Method `_get_obs` (lines 131-145).  `imgSrc` is `self._img_source` (the
`distractor_type` string), `renderFn` the external `physics.render`,
`bg` the image the background source returns, `tsObs` the time step's
observation dict. -/
def get_obs (fromPixels : Bool) (imgSrc : Option String)
    (renderFn : ℕ → ℕ → ℕ → NpImg) (storedH storedW storedC : ℕ)
    (bg : NpImg) (tsObs : List (String × ObsVal)) : Obs :=
  if fromPixels then
    let o := render_resolved renderFn storedH storedW storedC
      (some storedH) (some storedW) (some storedC)
    let o2 := if imgSrc.isSome then maskedAssign o (dmcMask o) bg else o
    Obs.pixels (transpose201 o2)
  else
    Obs.vec (flatten_obs tsObs)

/-- A gym `spaces.Box` with scalar bounds, as built for the pixel
observation space (lines 91-93). -/
structure BoxSpace where
  low : ℚ
  high : ℚ
  shape : List ℕ
  dtype : String
deriving DecidableEq

/-- The observation space chosen by the constructor (lines 90-97):
`Box(low=0, high=255, shape=[3, height, width], dtype=np.uint8)` when
`from_pixels`, else the box derived from the observation spec
(external), passed in as `specBox`. -/
def observation_space (fromPixels : Bool) (height width : ℕ)
    (specBox : BoxSpace) : BoxSpace :=
  if fromPixels then ⟨0, 255, [3, height, width], "uint8"⟩ else specBox

/-- A gym `spaces.Box` with per-component bounds over `n` components,
used for the action spaces. -/
structure BoxV (n : ℕ) where
  low : Fin n → ℚ
  high : Fin n → ℚ

/-- Membership test `Box.contains`: every component lies between the bounds. -/
def BoxV.contains {n : ℕ} (b : BoxV n) (x : Fin n → ℚ) : Prop :=
  ∀ i, b.low i ≤ x i ∧ x i ≤ b.high i

/-- The normalized action space, `spaces.Box(low=-1.0, high=1.0, shape=...)`
(lines 82-87). -/
def normActionSpace (n : ℕ) : BoxV n :=
  ⟨fun _ => -1, fun _ => 1⟩

/-- Method `_convert_action` (lines 147-154), componentwise over exact
rationals:
`true_delta = true.high - true.low`, `norm_delta = norm.high - norm.low`,
`action = (action - norm.low) / norm_delta`,
`action = action * true_delta + true.low`. -/
def convert_action {n : ℕ} (tr : BoxV n) (a : Fin n → ℚ) : Fin n → ℚ :=
  fun i =>
    let trueDelta := tr.high i - tr.low i
    let normDelta := (normActionSpace n).high i - (normActionSpace n).low i
    ((a i - (normActionSpace n).low i) / normDelta) * trueDelta + tr.low i

/-- C2: `_convert_action` is the affine rescaling
`low + ((a - (-1)) / 2) * (high - low)`; `-1` maps to the lower and `+1`
to the upper true bound componentwise (exact-arithmetic model of the
float64 computation). -/
theorem C2_convert_action_affine {n : ℕ} (tr : BoxV n) (a : Fin n → ℚ) :
    convert_action tr a
      = (fun i => tr.low i + ((a i - (-1)) / 2) * (tr.high i - tr.low i))
    ∧ convert_action tr (fun _ => -1) = tr.low
    ∧ convert_action tr (fun _ => 1) = tr.high := by
  refine ⟨funext fun i => ?_, funext fun i => ?_, funext fun i => ?_⟩ <;>
    simp only [convert_action, normActionSpace] <;> ring

/-- C7: any action inside the normalized box `[-1, 1]^n` is mapped by
`_convert_action` into the true action box (whose bounds are ordered,
as dm_env bounded specs guarantee), so the second assertion of `step`
never fails when the first holds. -/
theorem C7_convert_action_contains {n : ℕ} (tr : BoxV n)
    (hb : ∀ i, tr.low i ≤ tr.high i) (a : Fin n → ℚ)
    (ha : (normActionSpace n).contains a) :
    tr.contains (convert_action tr a) := by
  intro i
  have h1 : -1 ≤ a i := (ha i).1
  have h2 : a i ≤ 1 := (ha i).2
  have hd : 0 ≤ tr.high i - tr.low i := by linarith [hb i]
  simp only [convert_action, normActionSpace]
  constructor
  · nlinarith
  · nlinarith

/-- Witness for C7 at `n = 1`, true box `[2, 5]`, action `0`. -/
theorem C7_witness :
    (⟨fun _ => 2, fun _ => 5⟩ : BoxV 1).contains
      (convert_action (⟨fun _ => 2, fun _ => 5⟩ : BoxV 1) (fun _ => 0)) :=
  C7_convert_action_contains (⟨fun _ => 2, fun _ => 5⟩ : BoxV 1)
    (fun _ => by norm_num) (fun _ => 0)
    (fun _ => by constructor <;> simp [normActionSpace])

/-- A dm_env time step as `step` uses it: an optional reward (it can be
`None`), the `last()` flag and a discount. -/
structure TimeStep where
  reward : Option ℚ
  last : Bool
  discount : ℚ

/-- The frame-skip loop of `step` (lines 177-185), with the sub-step
results given by the stream `f` (the result of the `k`-th call to
`self._env.step`): starting at sub-step `i` with `r` iterations left,
accumulated reward `acc` and current `done` flag `d`, the loop adds
`time_step.reward or 0` to the reward, sets `done = time_step.last()`
and breaks as soon as `done` is true.  The result is
`(reward, done, number of sub-steps executed)`. -/
def frame_skip_go (f : ℕ → TimeStep) : ℕ → ℕ → ℚ → Bool → ℚ × Bool × ℕ
  | _, 0, acc, d => (acc, d, 0)
  | i, r + 1, acc, _ =>
    let ts := f i
    let acc2 := acc + ts.reward.getD 0
    if ts.last then (acc2, true, 1)
    else
      let out := frame_skip_go f (i + 1) r acc2 false
      (out.1, out.2.1, out.2.2 + 1)

/-- The reward/done part of `step` (lines 173-188): the action is
converted once by `_convert_action` and the same converted action is
passed to every sub-step of the frame-skip loop; `envStep k a` is the
time step the wrapped environment returns for the `k`-th sub-step when
given action `a`. -/
def py_step {n : ℕ} (envStep : ℕ → (Fin n → ℚ) → TimeStep)
    (tr : BoxV n) (a : Fin n → ℚ) (frameSkip : ℕ) : ℚ × Bool × ℕ :=
  frame_skip_go (fun k => envStep k (convert_action tr a)) 0 frameSkip 0 false

/-- A Python exception raised by the constructor. -/
inductive PyError where
  | typeError (msg : String)
  | assertionError (msg : String)
  | exception (msg : String)
deriving DecidableEq

/-- One of the four background-generator strategies (lines 106-123). -/
inductive BgSource where
  | color
  | noise
  | images (files : List String)
  | video (files : List String)
deriving DecidableEq

/-- The background-source dispatch of the constructor (lines 106-123).
`files` is the result of `glob.glob(os.path.expanduser(distractor_files))`
(external).  `color` and `noise` need no files; the remaining non-`None`
types first assert that the glob matched at least one file, then
dispatch on `images` / `video`, and raise `Exception` otherwise. -/
def select_bg_source (distractorType : Option String) (files : List String) :
    Except PyError (Option BgSource) :=
  match distractorType with
  | none => Except.ok none
  | some t =>
    if t = "color" then Except.ok (some BgSource.color)
    else if t = "noise" then Except.ok (some BgSource.noise)
    else if files.length = 0 then
      Except.error (PyError.assertionError "Pattern does not match any files")
    else if t = "images" then Except.ok (some (BgSource.images files))
    else if t = "video" then Except.ok (some (BgSource.video files))
    else Except.error (PyError.exception "img_source not defined")

/-- Python attribute lookup on the wrapper with `__getattr__` defined
(lines 128-129): `__getattr__` is consulted only when normal lookup on
the instance and its class fails, and then forwards to the wrapped
environment.  `instAttrs` is the normal lookup, `envAttrs` the wrapped
environment's attributes. -/
def wrapper_getattr {α : Type} (instAttrs : String → Option α)
    (envAttrs : String → α) (name : String) : α :=
  match instAttrs name with
  | some v => v
  | none => envAttrs name

/-- The `task_kwargs` seed handling of the constructor (lines 63 and
126): `assert 'random' in task_kwargs` — where the membership test on
`None` raises `TypeError` before the assertion message is produced —
and then `self.seed(seed=task_kwargs.get('random', 1))`.  The dict is
modelled as an association list, `None` as `Option.none`. -/
def init_seed_check (taskKwargs : Option (List (String × ℤ))) :
    Except PyError ℤ :=
  match taskKwargs with
  | none => Except.error (PyError.typeError "argument of type NoneType is not iterable")
  | some kw =>
    match kw.lookup "random" with
    | none => Except.error (PyError.assertionError "please specify a seed, for deterministic behaviour")
    | some _ => Except.ok ((kw.lookup "random").getD 1)

/-- Helper: Python `v or v` is `v` (passing the stored value explicitly,
as `_get_obs` does, resolves to the stored value). -/
theorem pyOr_some_self (v : ℕ) : pyOr (some v) v = v := by
  by_cases h : v = 0 <;> simp [pyOr, h]

/-- Helper: the length of `_flatten_obs` of a well-formed observation
dict is the sum of the element counts of its values. -/
theorem flatten_obs_length :
    ∀ l : List (String × ObsVal), (∀ p ∈ l, p.2.wf) →
      (flatten_obs l).length = (l.map (fun p => p.2.size)).sum := by
  intro l
  induction l with
  | nil => intro _; rfl
  | cons p rest ih =>
    intro hwf
    have hp : p.2.wf := hwf p (List.mem_cons_self p rest)
    have hr : ∀ q ∈ rest, q.2.wf := fun q hq => hwf q (List.mem_cons_of_mem p hq)
    have hlen : p.2.ravel.length = p.2.size := by
      cases h2 : p.2 with
      | scalar q => simp [ObsVal.ravel, ObsVal.size]
      | arr s d =>
        have hw := hp
        rw [h2] at hw
        simpa [ObsVal.ravel, ObsVal.size] using hw
    simp only [flatten_obs, List.map_cons, List.flatten_cons, List.length_append,
      List.sum_cons]
    rw [hlen]
    have := ih hr
    simp only [flatten_obs] at this
    rw [this]

/-- C1: with `from_pixels` true and a non-`None` distractor type, the
observation `_get_obs` produces is the rendered frame in which exactly
the pixels whose channel-2 value strictly exceeds both their channel-1
and channel-0 values are replaced by the corresponding background
pixels, all others unchanged, transposed from `(H, W, 3)` to
`(3, H, W)`.  `hr` is the external renderer's contract that it returns
an `(h, w, 3)` frame. -/
theorem C1_get_obs_pixels_masked (renderFn : ℕ → ℕ → ℕ → NpImg)
    (sh sw sc : ℕ) (bg : NpImg) (tsObs : List (String × ObsVal)) (t : String)
    (hr : ∀ h w c, (renderFn h w c).h = h ∧ (renderFn h w c).w = w
      ∧ (renderFn h w c).c = 3) :
    ∃ out, get_obs true (some t) renderFn sh sw sc bg tsObs = Obs.pixels out
      ∧ out.shape = [3, sh, sw]
      ∧ ∀ k y x, out.px k y x =
          if (renderFn sh sw sc).px y x 1 < (renderFn sh sw sc).px y x 2
              ∧ (renderFn sh sw sc).px y x 0 < (renderFn sh sw sc).px y x 2
          then bg.px y x k
          else (renderFn sh sw sc).px y x k := by
  refine ⟨transpose201 (maskedAssign (renderFn sh sw sc)
      (dmcMask (renderFn sh sw sc)) bg), ?_, ?_, ?_⟩
  · simp [get_obs, render_resolved, pyOr_some_self]
  · obtain ⟨h1, h2, h3⟩ := hr sh sw sc
    simp [transpose201, maskedAssign, NpImg.shape, h1, h2, h3]
  · intro k y x
    simp only [transpose201, maskedAssign]
    by_cases hm : (renderFn sh sw sc).px y x 1 < (renderFn sh sw sc).px y x 2
        ∧ (renderFn sh sw sc).px y x 0 < (renderFn sh sw sc).px y x 2
    · have hb : dmcMask (renderFn sh sw sc) y x = true := by
        simp [dmcMask, hm.1, hm.2]
      simp [hb, hm]
    · have hb : dmcMask (renderFn sh sw sc) y x = false := by
        simp only [dmcMask, Bool.and_eq_false_iff, decide_eq_false_iff_not]
        by_cases h1 : (renderFn sh sw sc).px y x 1 < (renderFn sh sw sc).px y x 2
        · exact Or.inr (fun h0 => hm ⟨h1, h0⟩)
        · exact Or.inl h1
      simp [hb, hm]

/-- Witness for C1: a concrete 2-by-2 renderer whose channel 2 always
dominates, so every pixel is replaced by the background. -/
theorem C1_witness :
    ∃ out, get_obs true (some "video")
        (fun h w _ => ⟨h, w, 3, fun y x k => y + x + 10 * k⟩) 2 2 0
        (⟨2, 2, 3, fun _ _ _ => 9⟩ : NpImg) [] = Obs.pixels out
      ∧ out.shape = [3, 2, 2]
      ∧ ∀ k y x, out.px k y x =
          if ((fun h w _ => (⟨h, w, 3, fun y x k => y + x + 10 * k⟩ : NpImg)) 2 2 0).px y x 1
                < ((fun h w _ => (⟨h, w, 3, fun y x k => y + x + 10 * k⟩ : NpImg)) 2 2 0).px y x 2
              ∧ ((fun h w _ => (⟨h, w, 3, fun y x k => y + x + 10 * k⟩ : NpImg)) 2 2 0).px y x 0
                < ((fun h w _ => (⟨h, w, 3, fun y x k => y + x + 10 * k⟩ : NpImg)) 2 2 0).px y x 2
          then (⟨2, 2, 3, fun _ _ _ => 9⟩ : NpImg).px y x k
          else ((fun h w _ => (⟨h, w, 3, fun y x k => y + x + 10 * k⟩ : NpImg)) 2 2 0).px y x k :=
  C1_get_obs_pixels_masked (fun h w _ => ⟨h, w, 3, fun y x k => y + x + 10 * k⟩)
    2 2 0 (⟨2, 2, 3, fun _ _ _ => 9⟩ : NpImg) [] "video"
    (fun _ _ _ => ⟨rfl, rfl, rfl⟩)

/-- C4: with `from_pixels` false, `_get_obs` returns exactly
`_flatten_obs` of the time step's observation dict, and the flat
vector's length is the sum of the sizes of all values. -/
theorem C4_get_obs_flatten (imgSrc : Option String)
    (rf : ℕ → ℕ → ℕ → NpImg) (sh sw sc : ℕ) (bg : NpImg)
    (tsObs : List (String × ObsVal)) (hwf : ∀ p ∈ tsObs, p.2.wf) :
    get_obs false imgSrc rf sh sw sc bg tsObs = Obs.vec (flatten_obs tsObs)
      ∧ (flatten_obs tsObs).length = (tsObs.map (fun p => p.2.size)).sum :=
  ⟨by simp [get_obs], flatten_obs_length tsObs hwf⟩

/-- Witness for C4 on a dict with a 2-by-2 array and a scalar. -/
theorem C4_witness :
    get_obs false none (fun h w _ => ⟨h, w, 3, fun _ _ _ => 0⟩) 1 1 0
        (⟨1, 1, 3, fun _ _ _ => 0⟩ : NpImg)
        [("position", ObsVal.arr [2, 2] [1, 2, 3, 4]), ("velocity", ObsVal.scalar 5)]
      = Obs.vec (flatten_obs
          [("position", ObsVal.arr [2, 2] [1, 2, 3, 4]), ("velocity", ObsVal.scalar 5)])
    ∧ (flatten_obs
        [("position", ObsVal.arr [2, 2] [1, 2, 3, 4]), ("velocity", ObsVal.scalar 5)]).length
      = ([("position", ObsVal.arr [2, 2] [1, 2, 3, 4]), ("velocity", ObsVal.scalar 5)].map
          (fun p => p.2.size)).sum := by
  refine C4_get_obs_flatten none _ 1 1 0 _ _ ?_
  intro p hp
  simp only [List.mem_cons, List.not_mem_nil, or_false] at hp
  rcases hp with rfl | rfl
  · rfl
  · trivial

/-- C5: the constructor's background dispatch: `None` creates no
source (and then `_get_obs` never masks), `color` / `noise` /
`images` / `video` create the four strategies (the latter two over the
globbed files, which must be non-empty), and any other non-`None`
type raises an exception. -/
theorem C5_bg_source_dispatch (files : List String) (hf : files ≠ []) :
    select_bg_source none files = Except.ok none
    ∧ select_bg_source (some "color") files = Except.ok (some BgSource.color)
    ∧ select_bg_source (some "noise") files = Except.ok (some BgSource.noise)
    ∧ select_bg_source (some "images") files = Except.ok (some (BgSource.images files))
    ∧ select_bg_source (some "video") files = Except.ok (some (BgSource.video files))
    ∧ (∀ t : String, t ≠ "color" → t ≠ "noise" → t ≠ "images" → t ≠ "video" →
        ∃ e, select_bg_source (some t) files = Except.error e)
    ∧ (∀ (rf : ℕ → ℕ → ℕ → NpImg) (sh sw sc : ℕ) (bg : NpImg)
        (tsObs : List (String × ObsVal)),
        get_obs true none rf sh sw sc bg tsObs
          = Obs.pixels (transpose201 (rf sh sw sc))) := by
  have hlen : files.length ≠ 0 := by
    simpa [List.length_eq_zero] using hf
  refine ⟨rfl, rfl, rfl, ?_, ?_, ?_, ?_⟩
  · simp [select_bg_source, hlen]
  · simp [select_bg_source, hlen]
  · intro t h1 h2 h3 h4
    by_cases hl : files.length = 0
    · exact ⟨PyError.assertionError "Pattern does not match any files",
        by simp [select_bg_source, h1, h2, hl]⟩
    · exact ⟨PyError.exception "img_source not defined",
        by simp [select_bg_source, h1, h2, h3, h4, hl]⟩
  · intro rf sh sw sc bg tsObs
    simp [get_obs, render_resolved, pyOr_some_self]

/-- Witness for C5: the `images` strategy over one file. -/
theorem C5_witness :
    select_bg_source (some "images") ["f.mp4"]
      = Except.ok (some (BgSource.images ["f.mp4"])) :=
  (C5_bg_source_dispatch ["f.mp4"] (by simp)).2.2.2.1

/-- C6: attribute access on the wrapper falls back, through
`__getattr__`, to the wrapped environment whenever normal lookup on the
instance and its class finds nothing. -/
theorem C6_getattr_forwarding {α : Type} (instAttrs : String → Option α)
    (envAttrs : String → α) (nm : String) (h : instAttrs nm = none) :
    wrapper_getattr instAttrs envAttrs nm = envAttrs nm := by
  simp [wrapper_getattr, h]

/-- Witness for C6: an empty instance dictionary forwards to the
wrapped environment. -/
theorem C6_witness :
    wrapper_getattr (fun _ => (none : Option ℕ)) (fun _ => 7) "physics" = 7 :=
  C6_getattr_forwarding (fun _ => none) (fun _ => 7) "physics" rfl

/-- C8: the `passed or stored` truthiness in `_render` replaces an
explicitly passed `0` by the stored value: with a stored camera id
`sc != 0`, rendering with `camera_id=0` renders from camera `sc`, not
camera 0, and passed `height=0` / `width=0` are likewise replaced. -/
theorem C8_render_falsy_args (rf : ℕ → ℕ → ℕ → NpImg) (sh sw sc : ℕ)
    (hc : sc ≠ 0) :
    render_resolved rf sh sw sc (some 0) (some 0) (some 0) = rf sh sw sc
    ∧ pyOr (some 0) sc = sc ∧ pyOr (some 0) sc ≠ 0
    ∧ pyOr (some 0) sh = sh ∧ pyOr (some 0) sw = sw :=
  ⟨rfl, rfl, by simpa [pyOr] using hc, rfl, rfl⟩

/-- Witness for C8 at stored camera id 2. -/
theorem C8_witness :
    render_resolved (fun h w c => ⟨h, w, c, fun _ _ _ => 0⟩) 84 84 2
        (some 0) (some 0) (some 0)
      = (fun h w c => (⟨h, w, c, fun _ _ _ => 0⟩ : NpImg)) 84 84 2
    ∧ pyOr (some 0) 2 = 2 ∧ pyOr (some 0) 2 ≠ 0
    ∧ pyOr (some 0) 84 = 84 ∧ pyOr (some 0) 84 = 84 :=
  C8_render_falsy_args (fun h w c => ⟨h, w, c, fun _ _ _ => 0⟩) 84 84 2
    (by norm_num)

/-- C9: the constructor's seed handling: `task_kwargs = None` makes the
membership test raise `TypeError`; a dict without the key `random`
fails the assertion; and with the key present the seed used is exactly
`task_kwargs['random']` (the `.get` default 1 is unreachable past the
assertion). -/
theorem C9_task_kwargs_seed :
    (∃ m, init_seed_check none = Except.error (PyError.typeError m))
    ∧ (∀ kw, kw.lookup "random" = none →
        ∃ m, init_seed_check (some kw) = Except.error (PyError.assertionError m))
    ∧ (∀ kw v, kw.lookup "random" = some v →
        init_seed_check (some kw) = Except.ok v) := by
  refine ⟨⟨_, rfl⟩, ?_, ?_⟩
  · intro kw h
    exact ⟨"please specify a seed, for deterministic behaviour",
      by simp [init_seed_check, h]⟩
  · intro kw v h
    simp [init_seed_check, h]

/-- Witness for C9: the seed `42` is read from the dict. -/
theorem C9_witness :
    init_seed_check (some [("random", 42)]) = Except.ok 42 :=
  C9_task_kwargs_seed.2.2 [("random", 42)] 42 rfl

/-- C10: with `from_pixels` true the advertised observation space is
`Box(low=0, high=255, shape=[3, height, width], dtype=uint8)`, and
every observation `_get_obs` produces (masked or not) has exactly that
shape and uint8-bounded values, given the renderer's `(h, w, 3)` /
uint8 contract and a uint8 background. -/
theorem C10_obs_space_invariant (rf : ℕ → ℕ → ℕ → NpImg) (sh sw sc : ℕ)
    (specBox : BoxSpace) (imgSrc : Option String) (bg : NpImg)
    (tsObs : List (String × ObsVal))
    (hr : ∀ h w c, (rf h w c).h = h ∧ (rf h w c).w = w ∧ (rf h w c).c = 3)
    (hrb : ∀ h w c y x k, (rf h w c).px y x k ≤ 255)
    (hbg : ∀ y x k, bg.px y x k ≤ 255) :
    observation_space true sh sw specBox = ⟨0, 255, [3, sh, sw], "uint8"⟩
    ∧ ∃ out, get_obs true imgSrc rf sh sw sc bg tsObs = Obs.pixels out
        ∧ out.shape = (observation_space true sh sw specBox).shape
        ∧ ∀ k y x, out.px k y x ≤ 255 := by
  refine ⟨rfl, ?_⟩
  obtain ⟨h1, h2, h3⟩ := hr sh sw sc
  cases imgSrc with
  | none =>
    refine ⟨transpose201 (rf sh sw sc),
      by simp [get_obs, render_resolved, pyOr_some_self], ?_, ?_⟩
    · simp [transpose201, NpImg.shape, observation_space, h1, h2, h3]
    · intro k y x
      exact hrb sh sw sc y x k
  | some t =>
    refine ⟨transpose201 (maskedAssign (rf sh sw sc) (dmcMask (rf sh sw sc)) bg),
      by simp [get_obs, render_resolved, pyOr_some_self], ?_, ?_⟩
    · simp [transpose201, maskedAssign, NpImg.shape, observation_space, h1, h2, h3]
    · intro k y x
      by_cases hm : dmcMask (rf sh sw sc) y x = true
      · simp only [transpose201, maskedAssign, hm, if_true]
        exact hbg y x k
      · simp only [transpose201, maskedAssign, hm, if_false]
        exact hrb sh sw sc y x k

/-- Witness for C10 with a constant 200-valued renderer and a constant
100-valued background. -/
theorem C10_witness :
    observation_space true 2 2 (⟨0, 1, [4], "float32"⟩ : BoxSpace)
      = ⟨0, 255, [3, 2, 2], "uint8"⟩ :=
  (C10_obs_space_invariant (fun h w _ => ⟨h, w, 3, fun _ _ _ => 200⟩) 2 2 0
    (⟨0, 1, [4], "float32"⟩ : BoxSpace) (some "color")
    (⟨2, 2, 3, fun _ _ _ => 100⟩ : NpImg) []
    (fun _ _ _ => ⟨rfl, rfl, rfl⟩)
    (fun _ _ _ _ _ _ => by norm_num)
    (fun _ _ _ => by norm_num)).1

/-- Helper: full characterization of the frame-skip loop started at
sub-step `i` with `r >= 1` iterations left and accumulated reward
`acc`: it executes between 1 and `r` sub-steps, the reward is `acc`
plus the sum of the executed rewards (`None` counted as 0), the done
flag is `last()` of the final executed sub-step, no earlier executed
sub-step was last, and the loop stops short of `r` only on a last
sub-step. -/
theorem frame_skip_go_char (f : ℕ → TimeStep) :
    ∀ r i acc, 1 ≤ r →
      1 ≤ (frame_skip_go f i r acc false).2.2
      ∧ (frame_skip_go f i r acc false).2.2 ≤ r
      ∧ (frame_skip_go f i r acc false).1
          = acc + Finset.sum (Finset.range (frame_skip_go f i r acc false).2.2)
              (fun j => (f (i + j)).reward.getD 0)
      ∧ (frame_skip_go f i r acc false).2.1
          = (f (i + (frame_skip_go f i r acc false).2.2 - 1)).last
      ∧ (∀ j, j + 1 < (frame_skip_go f i r acc false).2.2 → (f (i + j)).last = false)
      ∧ ((frame_skip_go f i r acc false).2.2 < r
          → (f (i + (frame_skip_go f i r acc false).2.2 - 1)).last = true) := by
  intro r
  induction r with
  | zero => intro i acc h; exact absurd h (by omega)
  | succ n ih =>
    intro i acc _
    by_cases hl : (f i).last = true
    · have hk : (frame_skip_go f i (n + 1) acc false).2.2 = 1 := by
        simp [frame_skip_go, hl]
      have hw : (frame_skip_go f i (n + 1) acc false).1
          = acc + (f i).reward.getD 0 := by
        simp [frame_skip_go, hl]
      have hd : (frame_skip_go f i (n + 1) acc false).2.1 = true := by
        simp [frame_skip_go, hl]
      rw [hk, hw, hd]
      refine ⟨le_refl 1, by omega, ?_, ?_, ?_, ?_⟩
      · simp [Finset.sum_range_one]
      · simpa using hl.symm
      · intro j hj; omega
      · intro _; simpa using hl
    · have hl2 : (f i).last = false := by
        revert hl; cases (f i).last <;> simp
      cases n with
      | zero =>
        have hk : (frame_skip_go f i 1 acc false).2.2 = 1 := by
          simp [frame_skip_go, hl2]
        have hw : (frame_skip_go f i 1 acc false).1
            = acc + (f i).reward.getD 0 := by
          simp [frame_skip_go, hl2]
        have hd : (frame_skip_go f i 1 acc false).2.1 = false := by
          simp [frame_skip_go, hl2]
        rw [hk, hw, hd]
        refine ⟨le_refl 1, le_refl 1, ?_, ?_, ?_, ?_⟩
        · simp [Finset.sum_range_one]
        · simpa using hl2.symm
        · intro j hj; omega
        · intro h; omega
      | succ m =>
        have hih := ih (i + 1) (acc + (f i).reward.getD 0) (by omega)
        obtain ⟨k1, k2, k3, k4, k5, k6⟩ := hih
        have he1 : (frame_skip_go f i (m + 1 + 1) acc false).1
            = (frame_skip_go f (i + 1) (m + 1) (acc + (f i).reward.getD 0) false).1 := by
          simp [frame_skip_go, hl2]
        have he2 : (frame_skip_go f i (m + 1 + 1) acc false).2.1
            = (frame_skip_go f (i + 1) (m + 1) (acc + (f i).reward.getD 0) false).2.1 := by
          simp [frame_skip_go, hl2]
        have he3 : (frame_skip_go f i (m + 1 + 1) acc false).2.2
            = (frame_skip_go f (i + 1) (m + 1) (acc + (f i).reward.getD 0) false).2.2 + 1 := by
          simp [frame_skip_go, hl2]
        rw [he1, he2, he3]
        refine ⟨by omega, by omega, ?_, ?_, ?_, ?_⟩
        · rw [k3, Finset.sum_range_succ']
          have hcg : Finset.sum
              (Finset.range (frame_skip_go f (i + 1) (m + 1) (acc + (f i).reward.getD 0) false).2.2)
              (fun j => (f (i + (j + 1))).reward.getD 0)
              = Finset.sum
              (Finset.range (frame_skip_go f (i + 1) (m + 1) (acc + (f i).reward.getD 0) false).2.2)
              (fun j => (f (i + 1 + j)).reward.getD 0) :=
            Finset.sum_congr rfl (fun j _ => by rw [show i + (j + 1) = i + 1 + j by omega])
          rw [hcg]
          simp only [Nat.add_zero]
          ring
        · rw [k4]
          congr 2
          omega
        · intro j hj
          cases j with
          | zero => simpa using hl2
          | succ j2 =>
            have := k5 j2 (by omega)
            rw [show i + (j2 + 1) = i + 1 + j2 by omega]
            exact this
        · intro hlt
          have := k6 (by omega)
          rw [show i + ((frame_skip_go f (i + 1) (m + 1) (acc + (f i).reward.getD 0) false).2.2 + 1) - 1
              = i + 1 + (frame_skip_go f (i + 1) (m + 1) (acc + (f i).reward.getD 0) false).2.2 - 1 by omega]
          exact this

/-- C3: a call to `step` with `frame_skip >= 1` executes between 1 and
`frame_skip` sub-steps, all with the same converted action
`_convert_action(a)`; the reward is the sum of the executed sub-step
rewards with `None` counted as 0, the done flag is `last()` of the
final executed sub-step, no earlier executed sub-step was last, and
the loop stops before `frame_skip` sub-steps only because a sub-step
was last. -/
theorem C3_step_frame_skip {n : ℕ} (envStep : ℕ → (Fin n → ℚ) → TimeStep)
    (tr : BoxV n) (a : Fin n → ℚ) (frameSkip : ℕ) (hfs : 1 ≤ frameSkip) :
    1 ≤ (py_step envStep tr a frameSkip).2.2
    ∧ (py_step envStep tr a frameSkip).2.2 ≤ frameSkip
    ∧ (py_step envStep tr a frameSkip).1
        = Finset.sum (Finset.range (py_step envStep tr a frameSkip).2.2)
            (fun j => (envStep j (convert_action tr a)).reward.getD 0)
    ∧ (py_step envStep tr a frameSkip).2.1
        = (envStep ((py_step envStep tr a frameSkip).2.2 - 1)
            (convert_action tr a)).last
    ∧ (∀ j, j + 1 < (py_step envStep tr a frameSkip).2.2
        → (envStep j (convert_action tr a)).last = false)
    ∧ ((py_step envStep tr a frameSkip).2.2 < frameSkip
        → (envStep ((py_step envStep tr a frameSkip).2.2 - 1)
            (convert_action tr a)).last = true) := by
  have h := frame_skip_go_char (fun k => envStep k (convert_action tr a))
    frameSkip 0 0 hfs
  simpa [py_step] using h

/-- Witness for C3 at `frame_skip = 5` with a trace whose second
sub-step is last. -/
theorem C3_witness :
    (py_step (fun k _ => TimeStep.mk (some 1) (decide (k = 1)) 1)
      (⟨fun _ => -1, fun _ => 1⟩ : BoxV 1) (fun _ => 0) 5).2.2 ≤ 5 :=
  (C3_step_frame_skip (fun k _ => TimeStep.mk (some 1) (decide (k = 1)) 1)
    (⟨fun _ => -1, fun _ => 1⟩ : BoxV 1) (fun _ => 0) 5 (by norm_num)).2.1
